import Mathlib

/-!
Verification of the retrieval → synthesis → parse pipeline implemented in
`app.py`.  The program text is shallowly embedded: Python strings are
modelled as `List Char`, the external collaborators (Tavily search client,
Gemini client, `json.loads`) are parameters of the embedded functions, and
the Streamlit UI side effects (errors, warnings, rendered widgets) are made
explicit in return values and traces.
-/

set_option maxRecDepth 40000

namespace AIDaily

/-! ### Python string primitives used by the pipeline -/

/-- The join `sep.join(blocks)` of Python: empty for the empty list, no
trailing separator. -/
def joinSep (sep : List Char) : List (List Char) → List Char
  | [] => []
  | [x] => x
  | x :: y :: rest => x ++ sep ++ joinSep sep (y :: rest)

/-- The join with a newline separator, as in the line
`"\n".join(all_results)` of `search_aggregated_data`. -/
def joinNL (blocks : List (List Char)) : List Char := joinSep ['\n'] blocks

/-- Fuel-driven worker for Python `str.replace`: scan left to right, replace
each non-overlapping occurrence of `pat` by `rep`.  The fuel is consumed one
unit per step; with fuel at least the length of the scanned list and a
non-empty `pat` it computes exactly Python's `replace`. -/
def replaceFuel (pat rep : List Char) : Nat → List Char → List Char
  | 0, s => s
  | _ + 1, [] => []
  | f + 1, c :: rest =>
    if pat.isPrefixOf (c :: rest) then
      rep ++ replaceFuel pat rep f ((c :: rest).drop pat.length)
    else
      c :: replaceFuel pat rep f rest

/-- Python `s.replace(pat, rep)` for a non-empty pattern. -/
def replaceAll (pat rep s : List Char) : List Char := replaceFuel pat rep s.length s

/-- The whitespace set stripped by Python `str.strip()` for ASCII text. -/
def pyWs (c : Char) : Bool :=
  c = ' ' || c = '\t' || c = '\n' || c = '\r' || c = '\x0b' || c = '\x0c'

/-- Python `str.strip()`: drop leading and trailing whitespace. -/
def pyStrip (s : List Char) : List Char :=
  ((s.dropWhile pyWs).reverse.dropWhile pyWs).reverse

/-- The fenced-code-block opener the sanitizer removes first. -/
def fenceJson : List Char := "```json".toList

/-- The bare code fence removed second. -/
def fence : List Char := "```".toList

/-- The response sanitizer of `main` (line 270):
`json_result.replace("```json", "").replace("```", "").strip()`. -/
def sanitize (s : List Char) : List Char :=
  pyStrip (replaceAll fence [] (replaceAll fenceJson [] s))

/-- A model reply wrapped in a fenced code block, the wrapping the sanitizer
is designed to undo. -/
def wrapFence (s : List Char) : List Char :=
  "```json\n".toList ++ s ++ "\n```".toList

/-! ### Retrieval aggregator (`search_aggregated_data`, lines 51–107) -/

/-- One categorized sub-query of the task registry (lines 66–82). -/
structure SearchTask where
  category : List Char
  query : List Char
  limit : Nat
deriving DecidableEq

/-- One item of a Tavily response, the fields read at line 99. -/
structure SearchItem where
  title : List Char
  content : List Char
  url : List Char
deriving DecidableEq

/-- Outcome of one `client.search` call: a result list, or an exception
raised by the provider (the `except` arm at line 103). -/
inductive TaskResult where
  | ok (items : List SearchItem)
  | err
deriving DecidableEq

/-- The items contributed by a task outcome: provider failures contribute
nothing. -/
def resultItems : TaskResult → List SearchItem
  | .ok items => items
  | .err => []

/-- The tagged text block appended per result item (line 99):
`f"[{task['category']}] Title: {title}\nContent: {content}\nURL: {url}\n"`. -/
def formatDoc (cat : List Char) (it : SearchItem) : List Char :=
  '[' :: cat ++ "] Title: ".toList ++ it.title ++
    "\nContent: ".toList ++ it.content ++ "\nURL: ".toList ++ it.url ++ ['\n']

/-- The `for task in tasks` loop of `search_aggregated_data` (lines 85–105),
accumulating the `all_results` blocks and the categories for which a
non-fatal `st.warning` was emitted. -/
def aggLoop (provider : SearchTask → TaskResult) :
    List SearchTask → List (List Char) → List (List Char) →
      List (List Char) × List (List Char)
  | [], acc, ws => (acc, ws)
  | t :: ts, acc, ws =>
    match provider t with
    | .ok items => aggLoop provider ts (acc ++ items.map (formatDoc t.category)) ws
    | .err => aggLoop provider ts acc (ws ++ [t.category])

/-- The first registry task (lines 67–71). -/
def taskNews : SearchTask :=
  { category := "Breaking News".toList
  , query := ("Artificial Intelligence breaking news latest 24 hours " ++
      "major announcements Gemini 3.0 OpenAI").toList
  , limit := 20 }

/-- The second registry task (lines 72–76). -/
def taskCode : SearchTask :=
  { category := "GitHub & Tools".toList
  , query := ("latest AI open source projects GitHub trending release " ++
      "new AI tools framework transformer").toList
  , limit := 15 }

/-- The third registry task (lines 77–81). -/
def taskBiz : SearchTask :=
  { category := "Business & Market".toList
  , query := "AI startup funding news acquisition market analysis report IPO".toList
  , limit := 15 }

/-- The fixed task registry defined inside `search_aggregated_data`
(lines 66–82). -/
def registryTasks : List SearchTask := [taskNews, taskCode, taskBiz]

/-- Observable outcome of `search_aggregated_data`: the returned corpus
(`none` models Python `None`, returned when the key is missing), the tasks
for which a provider request was issued, and the warning categories. -/
structure SearchOut where
  corpus : Option (List Char)
  calls : List SearchTask
  warnings : List (List Char)
deriving DecidableEq

/-- `search_aggregated_data(tavily_key)` (lines 51–107).  The key is
modelled by its presence; the provider call is a parameter.  Every task in
the registry issues one provider request (the call happens before the
exception propagates), and the function returns `"\n".join(all_results)`. -/
def search_aggregated_data (tavily_key : Bool)
    (provider : SearchTask → TaskResult) : SearchOut :=
  if tavily_key = false then
    { corpus := none, calls := [], warnings := [] }
  else
    let r := aggLoop provider registryTasks [] []
    { corpus := some (joinNL r.1), calls := registryTasks, warnings := r.2 }

/-! ### Synthesis invoker (`process_news_with_gemini`, lines 110–201) -/

/-- Outcome of the single `model.generate_content` exchange: the reply text,
or an exception message (everything the `try` block may raise). -/
inductive GenOutcome where
  | ok (text : List Char)
  | exn (msg : List Char)

/-- Classification of an invocation exception by the handler at
lines 193–200. -/
inductive InvokeError where
  | rateLimited
  | modelNotFound
  | unclassified
deriving DecidableEq

/-- Result of the invocation stage: missing-key precondition failure, the
raw reply text, or a classified failure (the function returns `None` after
showing the classified error). -/
inductive InvokeResult where
  | noKey
  | ok (text : List Char)
  | failed (e : InvokeError)

/-- The static compatibility table of lines 133–138. -/
def model_map : List (List Char × List Char) :=
  [ ("gemini-3.0-flash-preview".toList, "gemini-1.5-flash-latest".toList)
  , ("gemini-3.0-pro-preview".toList, "gemini-1.5-pro-latest".toList)
  , ("gemini-2.5-flash".toList, "gemini-1.5-flash".toList)
  , ("gemini-2.5-pro".toList, "gemini-1.5-pro".toList) ]

/-- Association-list lookup, the semantics of `dict.get(key, default)` on
the literal `model_map` dictionary. -/
def assocLookup (k : List Char) : List (List Char × List Char) → Option (List Char)
  | [] => none
  | (k', v) :: rest => if k = k' then some v else assocLookup k rest

/-- `target_model = model_map.get(model_selection, model_selection)`
(line 141): the compatibility resolver. -/
def resolveModel (model_selection : List Char) : List Char :=
  (assocLookup model_selection model_map).getD model_selection

/-- The rate-limit status code searched for in exception text. -/
def k429 : List Char := "429".toList

/-- The not-found status code searched for in exception text. -/
def k404 : List Char := "404".toList

/-- Exception classification by substring of the message (lines 195–200):
`"429"` wins over `"404"`, anything else is unclassified. -/
def classifyError (msg : List Char) : InvokeError :=
  if k429 <:+: msg then .rateLimited
  else if k404 <:+: msg then .modelNotFound
  else .unclassified

/-- `process_news_with_gemini(google_key, raw_data, model_selection)`
(lines 110–201).  `gen` models the provider exchange, applied to the
resolved model identifier and the raw corpus; the second component of the
result records the identifiers actually submitted (exactly one when the key
is present: the invoker has no retry loop). -/
def process_news_with_gemini (google_key : Bool) (raw_data : List Char)
    (model_selection : List Char)
    (gen : List Char → List Char → GenOutcome) :
    InvokeResult × List (List Char) :=
  if google_key = false then (.noKey, [])
  else
    let target := resolveModel model_selection
    match gen target raw_data with
    | .ok t => (.ok t, [target])
    | .exn m => (.failed (classifyError m), [target])

/-! ### Parsed JSON values and the rendering stage (`main`, lines 268–318) -/

/-- A value produced by `json.loads`. -/
inductive JVal where
  | null
  | bool (b : Bool)
  | num (n : Int)
  | str (s : List Char)
  | arr (xs : List JVal)
  | obj (fields : List (List Char × JVal))

/-- Lookup in a parsed JSON object, the semantics of Python dict access on
`json.loads` output. -/
def assocJ (k : List Char) : List (List Char × JVal) → Option JVal
  | [] => none
  | (k', v) :: rest => if k = k' then some v else assocJ k rest

/-- Python `item[k]`: succeeds only on a dict holding the key; on any other
value (or a missing key) it raises, which the surrounding `try` turns into
the parse-failure path. -/
def jindexE (v : JVal) (k : List Char) : Except Unit JVal :=
  match v with
  | .obj fs =>
    match assocJ k fs with
    | some x => .ok x
    | none => .error ()
  | _ => .error ()

/-- Python `item.get(k, d)`: succeeds on a dict (with the default for a
missing key), raises on any non-dict value. -/
def jgetE (v : JVal) (k : List Char) (d : JVal) : Except Unit JVal :=
  match v with
  | .obj fs => .ok ((assocJ k fs).getD d)
  | _ => .error ()

/-- Python iteration over a value: lists yield their elements, strings their
one-character substrings, dicts their keys; numbers, booleans and `None`
raise. -/
def iterE : JVal → Except Unit (List JVal)
  | .arr xs => .ok xs
  | .str cs => .ok (cs.map fun c => .str [c])
  | .obj fs => .ok (fs.map fun f => .str f.1)
  | _ => .error ()

/-- Whether Python iteration over the value succeeds. -/
def iterableB : JVal → Bool
  | .arr _ => true
  | .str _ => true
  | .obj _ => true
  | _ => false

/-- Total companion of `iterE`, returning `[]` on non-iterable values. -/
def iterD : JVal → List JVal
  | .arr xs => xs
  | .str cs => cs.map fun c => .str [c]
  | .obj fs => fs.map fun f => .str f.1
  | _ => []

/-- The object keys read by the rendering stage. -/
def titleKey : List Char := "title".toList

/-- Key of the per-item bullet list. -/
def cpKey : List Char := "core_points".toList

/-- Key of the news source. -/
def srcKey : List Char := "source".toList

/-- Key of the item link. -/
def urlKey : List Char := "url".toList

/-- Key of the market topic. -/
def topicKey : List Char := "topic".toList

/-- Key of the market insight. -/
def insightKey : List Char := "insight".toList

/-- Key of the tool name. -/
def nameKey : List Char := "name".toList

/-- Key of the tool description. -/
def descKey : List Char := "desc".toList

/-- Key of the tool technical highlight. -/
def thKey : List Char := "tech_highlight".toList

/-- Key of the breaking-news section. -/
def bnKey : List Char := "breaking_news".toList

/-- Key of the market-analysis section. -/
def maKey : List Char := "market_analysis".toList

/-- Key of the new-tech section. -/
def ntKey : List Char := "new_tech".toList

/-- The values the breaking-news tab reads per item (lines 281â287). -/
structure DisplayNews where
  title : JVal
  core_points : List JVal
  source : JVal
  url : JVal

/-- The values the market tab reads per item (lines 293–300). -/
structure DisplayMarket where
  topic : JVal
  insight : JVal
  url : JVal

/-- The values the tools tab reads per item (lines 305–313). -/
structure DisplayTool where
  name : JVal
  desc : JVal
  tech_highlight : JVal
  url : JVal

/-- Everything the three tabs display for one run. -/
structure DisplayReport where
  breaking : List DisplayNews
  market : List DisplayMarket
  tech : List DisplayTool

/-- One breaking-news item as rendered at lines 283–287, in source access
order: `item['title']`, `item.get('core_points', [])` then its iteration,
`item.get('source', 'Web')`, `item['url']`. -/
def renderNewsItem (it : JVal) : Except Unit DisplayNews :=
  match jindexE it titleKey with
  | .error e => .error e
  | .ok t =>
    match jgetE it cpKey (.arr []) with
    | .error e => .error e
    | .ok cpv =>
      match iterE cpv with
      | .error e => .error e
      | .ok cps =>
        match jgetE it srcKey (.str "Web".toList) with
        | .error e => .error e
        | .ok src =>
          match jindexE it urlKey with
          | .error e => .error e
          | .ok u => .ok { title := t, core_points := cps, source := src, url := u }

/-- One market item as rendered at lines 297–300: `item['topic']`,
`item['insight']`, `item.get('url')` (default `None`). -/
def renderMarketItem (it : JVal) : Except Unit DisplayMarket :=
  match jindexE it topicKey with
  | .error e => .error e
  | .ok tp =>
    match jindexE it insightKey with
    | .error e => .error e
    | .ok ins =>
      match jgetE it urlKey .null with
      | .error e => .error e
      | .ok u => .ok { topic := tp, insight := ins, url := u }

/-- One tools item as rendered at lines 309–313: `item['name']`,
`item['desc']`, `item.get('tech_highlight', 'N/A')`, `item['url']`. -/
def renderToolItem (it : JVal) : Except Unit DisplayTool :=
  match jindexE it nameKey with
  | .error e => .error e
  | .ok nm =>
    match jindexE it descKey with
    | .error e => .error e
    | .ok ds =>
      match jgetE it thKey (.str "N/A".toList) with
      | .error e => .error e
      | .ok th =>
        match jindexE it urlKey with
        | .error e => .error e
        | .ok u => .ok { name := nm, desc := ds, tech_highlight := th, url := u }

/-- The per-item loop of the breaking-news tab; the first raising item
aborts the whole rendering (the exception reaches line 315). -/
def renderNewsList : List JVal → Except Unit (List DisplayNews)
  | [] => .ok []
  | it :: rest =>
    match renderNewsItem it with
    | .error e => .error e
    | .ok d =>
      match renderNewsList rest with
      | .error e => .error e
      | .ok ds => .ok (d :: ds)

/-- The per-item loop of the market tab. -/
def renderMarketList : List JVal → Except Unit (List DisplayMarket)
  | [] => .ok []
  | it :: rest =>
    match renderMarketItem it with
    | .error e => .error e
    | .ok d =>
      match renderMarketList rest with
      | .error e => .error e
      | .ok ds => .ok (d :: ds)

/-- The per-item loop of the tools tab. -/
def renderToolList : List JVal → Except Unit (List DisplayTool)
  | [] => .ok []
  | it :: rest =>
    match renderToolItem it with
    | .error e => .error e
    | .ok d =>
      match renderToolList rest with
      | .error e => .error e
      | .ok ds => .ok (d :: ds)

/-- Section extraction `data.get(key, [])` followed by iteration, as at
lines 278, 291 and 304. -/
def renderSection (data : JVal) (key : List Char) : Except Unit (List JVal) :=
  match jgetE data key (.arr []) with
  | .error e => .error e
  | .ok v => iterE v

/-- The whole tab-rendering block (lines 273–313) in source order: breaking
news, then market analysis, then new tech. -/
def renderReport (data : JVal) : Except Unit DisplayReport :=
  match renderSection data bnKey with
  | .error e => .error e
  | .ok bs =>
    match renderNewsList bs with
    | .error e => .error e
    | .ok bd =>
      match renderSection data maKey with
      | .error e => .error e
      | .ok ms =>
        match renderMarketList ms with
        | .error e => .error e
        | .ok md =>
          match renderSection data ntKey with
          | .error e => .error e
          | .ok ts =>
            match renderToolList ts with
            | .error e => .error e
            | .ok td => .ok { breaking := bd, market := md, tech := td }

/-- Structural well-formedness of a breaking-news item: the accesses of
lines 283–287 all succeed.  Required: dict shape, `title`, `url`; the
`core_points` value (defaulting to `[]`) must be iterable. -/
def newsOk : JVal → Bool
  | .obj fs =>
    (assocJ titleKey fs).isSome &&
      iterableB ((assocJ cpKey fs).getD (.arr [])) &&
      (assocJ urlKey fs).isSome
  | _ => false

/-- Structural well-formedness of a market item: dict with `topic` and
`insight`; `url` is optional. -/
def marketOk : JVal → Bool
  | .obj fs =>
    (assocJ topicKey fs).isSome && (assocJ insightKey fs).isSome
  | _ => false

/-- Structural well-formedness of a tools item: dict with `name`, `desc`
and `url`; `tech_highlight` is optional. -/
def toolOk : JVal → Bool
  | .obj fs =>
    (assocJ nameKey fs).isSome && (assocJ descKey fs).isSome &&
      (assocJ urlKey fs).isSome
  | _ => false

/-- The values displayed for a well-formed breaking-news item, with the
defaults of the source: `core_points` defaults to the empty list and
`source` to the string `Web`. -/
def extractNews : JVal → DisplayNews
  | .obj fs =>
    { title := (assocJ titleKey fs).getD .null
    , core_points := iterD ((assocJ cpKey fs).getD (.arr []))
    , source := (assocJ srcKey fs).getD (.str "Web".toList)
    , url := (assocJ urlKey fs).getD .null }
  | _ => { title := .null, core_points := [], source := .null, url := .null }

/-- The values displayed for a well-formed market item; a missing `url`
defaults to `None` and the link is simply not shown. -/
def extractMarket : JVal → DisplayMarket
  | .obj fs =>
    { topic := (assocJ topicKey fs).getD .null
    , insight := (assocJ insightKey fs).getD .null
    , url := (assocJ urlKey fs).getD .null }
  | _ => { topic := .null, insight := .null, url := .null }

/-- The values displayed for a well-formed tools item; a missing
`tech_highlight` defaults to the string `N/A`. -/
def extractTool : JVal → DisplayTool
  | .obj fs =>
    { name := (assocJ nameKey fs).getD .null
    , desc := (assocJ descKey fs).getD .null
    , tech_highlight := (assocJ thKey fs).getD (.str "N/A".toList)
    , url := (assocJ urlKey fs).getD .null }
  | _ => { name := .null, desc := .null, tech_highlight := .null, url := .null }

/-! ### Structured reports and their JSON serialization

The report schema is the wire contract of the instruction block
(lines 161–186).  Serialization follows the Python standard library
`json.dumps` with its default separators; the repository relies on the
standard library pair `json.dumps`/`json.loads` being mutually inverse. -/

/-- A breaking-news item of the report schema. -/
structure NewsItemR where
  title : List Char
  core_points : List (List Char)
  url : List Char
  source : List Char
deriving DecidableEq

/-- A market-analysis item of the report schema. -/
structure MarketItemR where
  topic : List Char
  insight : List Char
  url : List Char
deriving DecidableEq

/-- A new-tech item of the report schema. -/
structure ToolItemR where
  name : List Char
  desc : List Char
  tech_highlight : List Char
  url : List Char
deriving DecidableEq

/-- A structured report: the three sections of the output schema. -/
structure StructuredReport where
  breaking_news : List NewsItemR
  market_analysis : List MarketItemR
  new_tech : List ToolItemR
deriving DecidableEq

/-- JSON string escaping for the characters the serializer must protect. -/
def escChar (c : Char) : List Char :=
  if c = '"' then ['\\', '"']
  else if c = '\\' then ['\\', '\\']
  else if c = '\n' then ['\\', 'n']
  else if c = '\t' then ['\\', 't']
  else if c = '\r' then ['\\', 'r']
  else [c]

/-- Escape a whole string body. -/
def escStr (s : List Char) : List Char := (s.map escChar).flatten

/-- A JSON string literal. -/
def jstr (s : List Char) : List Char := '"' :: escStr s ++ ['"']

/-- A JSON object from already-serialized `"key": value` fields. -/
def jobj (fs : List (List Char)) : List Char :=
  '\x7b' :: (joinSep ", ".toList fs ++ ['\x7d'])

/-- A JSON array from already-serialized elements. -/
def jarr (xs : List (List Char)) : List Char :=
  '[' :: (joinSep ", ".toList xs ++ [']'])

/-- A serialized `"key": value` field. -/
def jkv (k : List Char) (v : List Char) : List Char := jstr k ++ ':' :: ' ' :: v

/-- Serialization of a breaking-news item. -/
def dumpsNews (n : NewsItemR) : List Char :=
  jobj [ jkv "title".toList (jstr n.title)
       , jkv "core_points".toList (jarr (n.core_points.map jstr))
       , jkv "url".toList (jstr n.url)
       , jkv "source".toList (jstr n.source) ]

/-- Serialization of a market item. -/
def dumpsMarket (m : MarketItemR) : List Char :=
  jobj [ jkv "topic".toList (jstr m.topic)
       , jkv "insight".toList (jstr m.insight)
       , jkv "url".toList (jstr m.url) ]

/-- Serialization of a tools item. -/
def dumpsTool (t : ToolItemR) : List Char :=
  jobj [ jkv "name".toList (jstr t.name)
       , jkv "desc".toList (jstr t.desc)
       , jkv "tech_highlight".toList (jstr t.tech_highlight)
       , jkv "url".toList (jstr t.url) ]

/-- Serialization of a structured report, keys in schema order. -/
def dumpsReport (r : StructuredReport) : List Char :=
  jobj [ jkv "breaking_news".toList (jarr (r.breaking_news.map dumpsNews))
       , jkv "market_analysis".toList (jarr (r.market_analysis.map dumpsMarket))
       , jkv "new_tech".toList (jarr (r.new_tech.map dumpsTool)) ]

/-! ### The pipeline (`main`, lines 204–318) -/

/-- Terminal outcome of one run of `main` after the button press. -/
inductive RunResult where
  | missingKeys
  | retrievalFailed
  | invocationFailed (e : Option InvokeError)
  | parseError (raw : List Char)
  | report (r : DisplayReport)

/-- The external requests a run issued: the search tasks sent to the search
provider and the model identifiers submitted to the LLM provider. -/
structure Trace where
  searchCalls : List SearchTask
  genCalls : List (List Char)

/-- The `try` block of lines 268–318: sanitize, `json.loads` (modelled by
the `loads` parameter), then render; any failure lands in the `except` arm,
which shows the parse error together with the verbatim raw reply. -/
def parseStage (loads : List Char → Option JVal) (json_result : List Char) :
    RunResult :=
  match loads (sanitize json_result) with
  | none => .parseError json_result
  | some d =>
    match renderReport d with
    | .error _ => .parseError json_result
    | .ok rep => .report rep

/-- Lines 259–318: invoke the model, treat a falsy reply (`None` or the
empty string, line 261) as generation failure, otherwise parse and render. -/
def invokeAndParse (google_key : Bool) (raw : List Char)
    (model_choice : List Char) (gen : List Char → List Char → GenOutcome)
    (loads : List Char → Option JVal) : RunResult × List (List Char) :=
  let p := process_news_with_gemini google_key raw model_choice gen
  match p.1 with
  | .noKey => (.invocationFailed none, p.2)
  | .failed e => (.invocationFailed (some e), p.2)
  | .ok t =>
    if t = [] then (.invocationFailed none, p.2)
    else (parseStage loads t, p.2)

/-- One run of `main` (lines 238–318): the key precondition check of
line 239, the retrieval stage with the falsy-corpus abort of lines 249–253,
then invocation and parsing.  The trace records every external request the
run issued. -/
def runPipeline (google_key tavily_key : Bool)
    (provider : SearchTask → TaskResult)
    (gen : List Char → List Char → GenOutcome)
    (loads : List Char → Option JVal)
    (model_choice : List Char) : RunResult × Trace :=
  if google_key = false ∨ tavily_key = false then
    (.missingKeys, { searchCalls := [], genCalls := [] })
  else
    let s := search_aggregated_data tavily_key provider
    match s.corpus with
    | none => (.retrievalFailed, { searchCalls := s.calls, genCalls := [] })
    | some raw =>
      if raw = [] then
        (.retrievalFailed, { searchCalls := s.calls, genCalls := [] })
      else
        let ip := invokeAndParse google_key raw model_choice gen loads
        (ip.1, { searchCalls := s.calls, genCalls := ip.2 })

/-! ### Helper lemmas on list prefixes, occurrences and `replace` -/

/-- Boolean prefix test agrees with the prefix order. -/
theorem isPrefixOfBool (l₁ l₂ : List Char) : l₁.isPrefixOf l₂ = true ↔ l₁ <+: l₂ :=
  List.isPrefixOf_iff_prefix

/-- A list is a prefix of itself extended on the right. -/
theorem prefApp (l₁ l₂ : List Char) : l₁ <+: l₁ ++ l₂ := List.prefix_append l₁ l₂

/-- Of two prefixes of the same list, the shorter is a prefix of the longer. -/
theorem prefLe {l₁ l₂ l₃ : List Char} (h1 : l₁ <+: l₃) (h2 : l₂ <+: l₃)
    (h : l₁.length ≤ l₂.length) : l₁ <+: l₂ :=
  List.prefix_of_prefix_length_le h1 h2 h

/-- An occurrence inside the tail is an occurrence in the whole list. -/
theorem infC {l₁ l₂ : List Char} (a : Char) (h : l₁ <:+: l₂) : l₁ <:+: a :: l₂ :=
  List.infix_cons h

/-- A prefix occurrence is an occurrence. -/
theorem prefInf {l₁ l₂ : List Char} (h : l₁ <+: l₂) : l₁ <:+: l₂ :=
  List.IsPrefix.isInfix h

/-- Occurrence is transitive. -/
theorem infTrans {l₁ l₂ l₃ : List Char} (h1 : l₁ <:+: l₂) (h2 : l₂ <:+: l₃) :
    l₁ <:+: l₃ :=
  List.IsInfix.trans h1 h2

/-- An occurring pattern is no longer than its host. -/
theorem infLen {l₁ l₂ : List Char} (h : l₁ <:+: l₂) : l₁.length ≤ l₂.length :=
  List.IsInfix.length_le h

/-- A take is a prefix. -/
theorem takePre (n : Nat) (l : List Char) : l.take n <+: l := List.take_prefix n l

/-- `replaceFuel` on the empty list is the empty list for any fuel. -/
theorem replaceFuel_nil (pat rep : List Char) (f : Nat) :
    replaceFuel pat rep f [] = [] := by
  cases f <;> rfl

/-- If the pattern occurs nowhere in `s`, `replaceFuel` leaves `s`
untouched, whatever the fuel. -/
theorem replaceFuel_id_of_no_occ (pat rep : List Char) (f : Nat) :
    ∀ s : List Char, ¬ pat <:+: s → replaceFuel pat rep f s = s := by
  induction f with
  | zero => intro s _; rfl
  | succ f ih =>
    intro s hs
    cases s with
    | nil => rfl
    | cons c rest =>
      have hp : pat.isPrefixOf (c :: rest) = false := by
        rcases Bool.eq_false_or_eq_true (pat.isPrefixOf (c :: rest)) with h | h
        · exact absurd (prefInf ((isPrefixOfBool pat (c :: rest)).mp h)) hs
        · exact h
      have hrest : ¬ pat <:+: rest := fun h => hs (infC c h)
      simp [replaceFuel, hp, ih rest hrest]

/-- If a pattern avoiding the character `c` is a prefix of `x ++ c :: y`,
it is already a prefix of `x`. -/
theorem prefOfAppendCons (pat x y : List Char) (c : Char)
    (hc : c ∉ pat) (h : pat <+: x ++ c :: y) : pat <+: x := by
  rcases le_or_lt pat.length x.length with hle | hlt
  · exact prefLe h (prefApp x (c :: y)) hle
  · exfalso
    have hx : x <+: pat := prefLe (prefApp x (c :: y)) h (Nat.le_of_lt hlt)
    rcases hx with ⟨w, hw⟩
    rcases h with ⟨v, hv⟩
    rw [← hw, List.append_assoc] at hv
    have hwv : w ++ v = c :: y := List.append_cancel_left hv
    cases w with
    | nil =>
      have : pat.length = x.length := by rw [← hw]; simp
      omega
    | cons a w' =>
      have ha : a = c := by simpa using congrArg (fun l => l.head?) hwv
      apply hc
      rw [← hw, ha]
      exact List.mem_append_right x (List.mem_cons_self c w')

/-- An occurrence of a pattern avoiding `c` in `x ++ c :: y` lies entirely
inside `x` or entirely inside `y`. -/
theorem occSplit (pat y : List Char) (c : Char) (hc : c ∉ pat) :
    ∀ x : List Char, pat <:+: x ++ c :: y → pat <:+: x ∨ pat <:+: y := by
  intro x
  induction x with
  | nil =>
    intro h
    rcases h with ⟨s, t, hst⟩
    cases s with
    | nil =>
      cases pat with
      | nil => exact Or.inl ⟨[], [], rfl⟩
      | cons p ps =>
        exfalso
        apply hc
        have hp : p = c := by simpa using congrArg (fun l => l.head?) hst
        rw [hp]
        exact List.mem_cons_self c ps
    | cons a s' =>
      simp only [List.nil_append, List.cons_append] at hst
      exact Or.inr ⟨s', t, by simpa using congrArg List.tail hst⟩
  | cons b x' ih =>
    intro h
    rcases h with ⟨s, t, hst⟩
    cases s with
    | nil =>
      have hp : pat <+: (b :: x') ++ c :: y := ⟨t, by simpa using hst⟩
      exact Or.inl (prefInf (prefOfAppendCons pat (b :: x') y c hc hp))
    | cons a s' =>
      simp only [List.cons_append] at hst
      have h2 : s' ++ pat ++ t = x' ++ c :: y := by
        simpa using congrArg List.tail hst
      rcases ih ⟨s', t, h2⟩ with h | h
      · exact Or.inl (infC b h)
      · exact Or.inr h

/-- Replacing a pattern that occurs exactly once, at the head: the scan
replaces it and leaves the rest alone. -/
theorem replaceFuel_head_match (pat rep t : List Char) (f : Nat)
    (h : ¬ pat <:+: t) :
    replaceFuel pat rep (f + 1) (pat ++ t) = rep ++ t := by
  have hne : pat ≠ [] := by
    rintro rfl
    exact h ⟨[], t, rfl⟩
  cases pat with
  | nil => exact absurd rfl hne
  | cons p ps =>
    have hpre : (p :: ps).isPrefixOf (p :: (ps ++ t)) = true :=
      (isPrefixOfBool _ _).mpr (prefApp (p :: ps) t)
    show replaceFuel (p :: ps) rep (f + 1) (p :: (ps ++ t)) = rep ++ t
    rw [replaceFuel, if_pos]
    · have hdrop : (p :: (ps ++ t)).drop (p :: ps).length = t := by
        simp only [List.length_cons, List.drop_succ_cons]
        exact List.drop_left ps t
      rw [hdrop, replaceFuel_id_of_no_occ _ _ _ t h]
    · exact hpre

/-- Replacing a pattern that occurs exactly once, at the very end: the scan
copies the head and replaces the final occurrence. -/
theorem replaceFuel_tail_match (pat rep : List Char) :
    ∀ (u : List Char) (f : Nat), (u ++ pat).length ≤ f →
      ¬ pat <:+: (u ++ pat.take (pat.length - 1)) →
      replaceFuel pat rep f (u ++ pat) = u ++ rep := by
  intro u
  induction u with
  | nil =>
    intro f hf h
    have hne : pat ≠ [] := by
      rintro rfl
      exact h ⟨[], [], by simp⟩
    cases pat with
    | nil => exact absurd rfl hne
    | cons p ps =>
      cases f with
      | zero => simp at hf
      | succ f' =>
        show replaceFuel (p :: ps) rep (f' + 1) (p :: ps) = [] ++ rep
        rw [replaceFuel, if_pos]
        · have hdrop : (p :: ps).drop (p :: ps).length = ([] : List Char) := by
            simp
          rw [hdrop, replaceFuel_nil]
          simp
        · exact (isPrefixOfBool _ _).mpr (List.prefix_refl _)
  | cons b u' ih =>
    intro f hf h
    have hne : pat ≠ [] := by
      rintro rfl
      exact h ⟨(b :: u'), [], by simp⟩
    have hlenpos : 0 < pat.length := List.length_pos.mpr hne
    cases f with
    | zero =>
      exfalso
      simp only [List.length_append, List.length_cons] at hf
      omega
    | succ f' =>
      have hp : pat.isPrefixOf (b :: (u' ++ pat)) = false := by
        rcases Bool.eq_false_or_eq_true (pat.isPrefixOf (b :: (u' ++ pat))) with hb | hb
        · exfalso
          have hpp : pat <+: (b :: u') ++ pat := by
            have := (isPrefixOfBool _ _).mp hb
            simpa using this
          have hreg : (b :: u') ++ pat.take (pat.length - 1) <+: (b :: u') ++ pat := by
            rcases takePre (pat.length - 1) pat with ⟨w, hw⟩
            exact ⟨w, by rw [List.append_assoc, hw]⟩
          have hlen : pat.length ≤ ((b :: u') ++ pat.take (pat.length - 1)).length := by
            simp only [List.length_append, List.length_cons, List.length_take]
            omega
          exact h (prefInf (prefLe hpp hreg hlen))
        · exact hb
      show replaceFuel pat rep (f' + 1) (b :: (u' ++ pat)) = b :: (u' ++ rep)
      rw [replaceFuel, if_neg]
      · have hf' : (u' ++ pat).length ≤ f' := by
          simp only [List.length_append, List.length_cons] at hf ⊢
          omega
        have h' : ¬ pat <:+: (u' ++ pat.take (pat.length - 1)) := by
          intro hocc
          exact h (infC b hocc)
        rw [ih f' hf' h']
      · simp [hp]

/-- `dropWhile` does nothing when the head survives the predicate. -/
theorem dropWhile_of_head (p : Char → Bool) (s : List Char) (c : Char)
    (hc : s.head? = some c) (hp : p c = false) : s.dropWhile p = s := by
  cases s with
  | nil => simp at hc
  | cons a l =>
    have ha : a = c := by simpa using hc
    subst ha
    simp [List.dropWhile, hp]

/-- `strip` is the identity on a string with non-whitespace endpoints. -/
theorem pyStrip_of_clean (s : List Char) (c d : Char)
    (hh : s.head? = some c) (hc : pyWs c = false)
    (hl : s.getLast? = some d) (hd : pyWs d = false) : pyStrip s = s := by
  unfold pyStrip
  rw [dropWhile_of_head pyWs s c hh hc]
  rw [dropWhile_of_head pyWs s.reverse d (by rw [List.head?_reverse]; exact hl) hd]
  exact List.reverse_reverse s

/-- `strip` removes exactly one layer of surrounding newlines from a string
with non-whitespace endpoints. -/
theorem pyStrip_newline_wrap (s : List Char) (c d : Char)
    (hh : s.head? = some c) (hc : pyWs c = false)
    (hl : s.getLast? = some d) (hd : pyWs d = false) :
    pyStrip ('\n' :: (s ++ ['\n'])) = s := by
  unfold pyStrip
  have h1 : List.dropWhile pyWs ('\n' :: (s ++ ['\n'])) =
      List.dropWhile pyWs (s ++ ['\n']) := by
    simp [List.dropWhile, show pyWs '\n' = true from rfl]
  have h2 : List.dropWhile pyWs (s ++ ['\n']) = s ++ ['\n'] := by
    apply dropWhile_of_head pyWs _ c _ hc
    cases s with
    | nil => simp at hh
    | cons a l => simpa using hh
  rw [h1, h2]
  have h3 : (s ++ ['\n']).reverse = '\n' :: s.reverse := by
    simp
  rw [h3]
  have h4 : List.dropWhile pyWs ('\n' :: s.reverse) = List.dropWhile pyWs s.reverse := by
    simp [List.dropWhile, show pyWs '\n' = true from rfl]
  rw [h4]
  rw [dropWhile_of_head pyWs s.reverse d (by rw [List.head?_reverse]; exact hl) hd]
  exact List.reverse_reverse s

/-- The bare fence occurs in the json-tagged fence. -/
theorem no_occ_fenceJson {s : List Char} (h : ¬ fence <:+: s) :
    ¬ fenceJson <:+: s := by
  intro hj
  exact h (infTrans (prefInf ⟨"json".toList, by decide⟩) hj)

/-- On a fence-free string with brace endpoints — every serialized JSON
object whose text does not contain a code fence — the sanitizer is the
identity. -/
theorem sanitize_id_of_clean (s : List Char) (hf : ¬ fence <:+: s)
    (hh : s.head? = some '\x7b') (hl : s.getLast? = some '\x7d') :
    sanitize s = s := by
  unfold sanitize replaceAll
  rw [replaceFuel_id_of_no_occ _ _ _ s (no_occ_fenceJson hf)]
  rw [replaceFuel_id_of_no_occ _ _ _ s hf]
  exact pyStrip_of_clean s _ _ hh (by decide) hl (by decide)

/-- On a fence-free string with brace endpoints wrapped in a
```` ```json … ``` ```` code block, the sanitizer recovers the string. -/
theorem sanitize_unwraps (s : List Char) (hf : ¬ fence <:+: s)
    (hh : s.head? = some '\x7b') (hl : s.getLast? = some '\x7d') :
    sanitize (wrapFence s) = s := by
  have hnl : ('\n' : Char) ∉ fenceJson := by decide
  have hnl3 : ('\n' : Char) ∉ fence := by decide
  set t : List Char := '\n' :: (s ++ ('\n' :: fence)) with ht
  have hw : wrapFence s = fenceJson ++ t := by
    simp [wrapFence, fenceJson, fence, ht]
  have hocc1 : ¬ fenceJson <:+: t := by
    intro hocc
    rcases occSplit fenceJson (s ++ ('\n' :: fence)) '\n' hnl [] hocc with h | h
    · have := infLen h
      simp [fenceJson] at this
    · rcases occSplit fenceJson fence '\n' hnl s h with h2 | h2
      · exact (no_occ_fenceJson hf) h2
      · have := infLen h2
        simp [fenceJson, fence] at this
  have hstep1 : replaceAll fenceJson [] (wrapFence s) = t := by
    unfold replaceAll
    rw [hw]
    have hlen : (fenceJson ++ t).length = (6 + t.length) + 1 := by
      simp [fenceJson]
      omega
    rw [hlen, replaceFuel_head_match fenceJson [] t _ hocc1]
    simp
  have hsplit : t = ('\n' :: (s ++ ['\n'])) ++ fence := by
    simp [ht]
  have hocc2 : ¬ fence <:+: (('\n' :: (s ++ ['\n'])) ++ fence.take (fence.length - 1)) := by
    intro hocc
    have htake : fence.take (fence.length - 1) = ['\x60', '\x60'] := by decide
    rw [htake] at hocc
    have hsh : ('\n' :: (s ++ ['\n'])) ++ ['\x60', '\x60'] =
        [] ++ '\n' :: (s ++ ('\n' :: ['\x60', '\x60'])) := by
      simp
    rw [hsh] at hocc
    rcases occSplit fence (s ++ ('\n' :: ['\x60', '\x60'])) '\n' hnl3 [] hocc with h | h
    · have := infLen h
      simp [fence] at this
    · rcases occSplit fence ['\x60', '\x60'] '\n' hnl3 s h with h2 | h2
      · exact hf h2
      · have := infLen h2
        simp [fence] at this
  have hstep2 : replaceAll fence [] t = '\n' :: (s ++ ['\n']) := by
    unfold replaceAll
    rw [hsplit]
    rw [replaceFuel_tail_match fence [] ('\n' :: (s ++ ['\n'])) _ (le_refl _) hocc2]
    simp
  unfold sanitize
  rw [hstep1, hstep2]
  exact pyStrip_newline_wrap s _ _ hh (by decide) hl (by decide)

/-! ### Shape of serialized reports -/

/-- A serialized object starts with an opening brace. -/
theorem jobj_head (fs : List (List Char)) : (jobj fs).head? = some '\x7b' := rfl

/-- A serialized object ends with a closing brace. -/
theorem jobj_last (fs : List (List Char)) : (jobj fs).getLast? = some '\x7d' := by
  show ('\x7b' :: (joinSep ", ".toList fs ++ ['\x7d'])).getLast? = some '\x7d'
  rw [show '\x7b' :: (joinSep ", ".toList fs ++ ['\x7d']) =
    ('\x7b' :: joinSep ", ".toList fs) ++ ['\x7d'] from rfl]
  exact List.getLast?_concat _

/-- A serialized report starts with an opening brace. -/
theorem dumpsReport_head (r : StructuredReport) :
    (dumpsReport r).head? = some '\x7b' :=
  jobj_head _

/-- A serialized report ends with a closing brace. -/
theorem dumpsReport_last (r : StructuredReport) :
    (dumpsReport r).getLast? = some '\x7d' :=
  jobj_last _

/-! ### The aggregation loop as a flat map -/

/-- The accumulator loop of the aggregator produces exactly the blocks of
each task in task order, each task's blocks in provider response order. -/
theorem aggLoop_fst (provider : SearchTask → TaskResult) :
    ∀ (ts : List SearchTask) (acc ws : List (List Char)),
      (aggLoop provider ts acc ws).1 =
        acc ++ ts.flatMap
          (fun t => (resultItems (provider t)).map (formatDoc t.category)) := by
  intro ts
  induction ts with
  | nil => intro acc ws; simp [aggLoop]
  | cons t ts ih =>
    intro acc ws
    cases hp : provider t with
    | ok items => simp [aggLoop, hp, ih, resultItems, List.append_assoc]
    | err => simp [aggLoop, hp, ih, resultItems]

/-- A formatted document block is never empty. -/
theorem formatDoc_ne_nil (cat : List Char) (it : SearchItem) :
    formatDoc cat it ≠ [] := by
  simp [formatDoc]

/-- The leading tag of a formatted block is exactly its category in square
brackets. -/
theorem formatDoc_take (cat : List Char) (it : SearchItem) :
    (formatDoc cat it).take (cat.length + 2) = '[' :: (cat ++ [']']) := by
  unfold formatDoc
  simp only [List.cons_append, List.append_assoc]
  rw [show cat.length + 2 = (cat.length + 1) + 1 from rfl, List.take_succ_cons]
  rw [List.take_append 1]
  simp

/-- Joining blocks one of which is non-empty yields a non-empty corpus. -/
theorem joinNL_ne_nil (bs : List (List Char)) (b : List Char)
    (hb : b ∈ bs) (hne : b ≠ []) : joinNL bs ≠ [] := by
  induction bs with
  | nil => simp at hb
  | cons x xs ih =>
    cases xs with
    | nil =>
      have : b = x := by simpa using hb
      subst this
      simpa [joinNL, joinSep] using hne
    | cons y ys =>
      simp [joinNL, joinSep]

/-! ### Lookup and rendering equivalences -/

/-- Lookup misses every key absent from the table. -/
theorem assocLookup_eq_none (k : List Char) :
    ∀ l : List (List Char × List Char), k ∉ l.map Prod.fst →
      assocLookup k l = none := by
  intro l
  induction l with
  | nil => intro _; rfl
  | cons p rest ih =>
    intro hk
    have h1 : ¬ k = p.1 := by
      intro h
      exact hk (by simp [h])
    have h2 : k ∉ rest.map Prod.fst := by
      intro h
      exact hk (by simp [h])
    cases p with
    | mk k' v => simpa [assocLookup, h1] using ih h2

/-- Python iteration characterized by the iterability test and the total
element function. -/
theorem iterE_eq (v : JVal) :
    iterE v = if iterableB v then .ok (iterD v) else .error () := by
  cases v <;> rfl

/-- One breaking-news item renders the extracted values exactly when its
required accesses succeed, and otherwise aborts the rendering. -/
theorem renderNewsItem_eq (it : JVal) :
    renderNewsItem it = if newsOk it then .ok (extractNews it) else .error () := by
  cases it with
  | obj fs =>
    unfold renderNewsItem newsOk extractNews jindexE jgetE
    cases h1 : assocJ titleKey fs with
    | none => simp [h1]
    | some t =>
      cases h2 : iterableB ((assocJ cpKey fs).getD (JVal.arr [])) with
      | false => simp [h1, iterE_eq, h2]
      | true =>
        cases h3 : assocJ urlKey fs with
        | none => simp [h1, iterE_eq, h2, h3]
        | some u => simp [h1, iterE_eq, h2, h3]
  | null => rfl
  | bool b => rfl
  | num n => rfl
  | str s => rfl
  | arr xs => rfl

/-- One market item renders the extracted values exactly when its required
accesses succeed. -/
theorem renderMarketItem_eq (it : JVal) :
    renderMarketItem it =
      if marketOk it then .ok (extractMarket it) else .error () := by
  cases it with
  | obj fs =>
    unfold renderMarketItem marketOk extractMarket jindexE jgetE
    cases h1 : assocJ topicKey fs with
    | none => simp [h1]
    | some t =>
      cases h2 : assocJ insightKey fs with
      | none => simp [h1, h2]
      | some i => simp [h1, h2]
  | null => rfl
  | bool b => rfl
  | num n => rfl
  | str s => rfl
  | arr xs => rfl

/-- One tools item renders the extracted values exactly when its required
accesses succeed. -/
theorem renderToolItem_eq (it : JVal) :
    renderToolItem it = if toolOk it then .ok (extractTool it) else .error () := by
  cases it with
  | obj fs =>
    unfold renderToolItem toolOk extractTool jindexE jgetE
    cases h1 : assocJ nameKey fs with
    | none => simp [h1]
    | some n =>
      cases h2 : assocJ descKey fs with
      | none => simp [h1, h2]
      | some d =>
        cases h3 : assocJ urlKey fs with
        | none => simp [h1, h2, h3]
        | some u => simp [h1, h2, h3]
  | null => rfl
  | bool b => rfl
  | num n => rfl
  | str s => rfl
  | arr xs => rfl

/-- The breaking-news loop succeeds with the extracted values exactly when
every item is well-formed; one malformed item aborts the whole rendering. -/
theorem renderNewsList_eq (its : List JVal) :
    renderNewsList its =
      if its.all newsOk then .ok (its.map extractNews) else .error () := by
  induction its with
  | nil => rfl
  | cons it rest ih =>
    unfold renderNewsList
    rw [renderNewsItem_eq, ih]
    cases h1 : newsOk it with
    | false => simp [h1]
    | true =>
      cases h2 : rest.all newsOk with
      | false => simp [h1, h2]
      | true => simp [h1, h2]

/-- The market loop succeeds with the extracted values exactly when every
item is well-formed. -/
theorem renderMarketList_eq (its : List JVal) :
    renderMarketList its =
      if its.all marketOk then .ok (its.map extractMarket) else .error () := by
  induction its with
  | nil => rfl
  | cons it rest ih =>
    unfold renderMarketList
    rw [renderMarketItem_eq, ih]
    cases h1 : marketOk it with
    | false => simp [h1]
    | true =>
      cases h2 : rest.all marketOk with
      | false => simp [h1, h2]
      | true => simp [h1, h2]

/-- The tools loop succeeds with the extracted values exactly when every
item is well-formed. -/
theorem renderToolList_eq (its : List JVal) :
    renderToolList its =
      if its.all toolOk then .ok (its.map extractTool) else .error () := by
  induction its with
  | nil => rfl
  | cons it rest ih =>
    unfold renderToolList
    rw [renderToolItem_eq, ih]
    cases h1 : toolOk it with
    | false => simp [h1]
    | true =>
      cases h2 : rest.all toolOk with
      | false => simp [h1, h2]
      | true => simp [h1, h2]

/-- Rendering a parsed object with the three sections present as lists:
success with the extracted values exactly when every item of every section
is well-formed, and the whole rendering aborts otherwise. -/
theorem renderReport_obj3 (bs ms ts : List JVal) :
    renderReport (JVal.obj [(bnKey, .arr bs), (maKey, .arr ms), (ntKey, .arr ts)]) =
      if bs.all newsOk && ms.all marketOk && ts.all toolOk then
        .ok { breaking := bs.map extractNews
            , market := ms.map extractMarket
            , tech := ts.map extractTool }
      else .error () := by
  have hb : assocJ bnKey [(bnKey, JVal.arr bs), (maKey, JVal.arr ms), (ntKey, JVal.arr ts)] =
      some (JVal.arr bs) := rfl
  have hm : assocJ maKey [(bnKey, JVal.arr bs), (maKey, JVal.arr ms), (ntKey, JVal.arr ts)] =
      some (JVal.arr ms) := rfl
  have hn : assocJ ntKey [(bnKey, JVal.arr bs), (maKey, JVal.arr ms), (ntKey, JVal.arr ts)] =
      some (JVal.arr ts) := rfl
  unfold renderReport renderSection jgetE
  simp only [hb, hm, hn, Option.getD_some, iterE]
  rw [renderNewsList_eq, renderMarketList_eq, renderToolList_eq]
  cases hB : bs.all newsOk with
  | false => simp [hB]
  | true =>
    cases hM : ms.all marketOk with
    | false => simp [hB, hM]
    | true =>
      cases hN : ts.all toolOk with
      | false => simp [hB, hM, hN]
      | true => simp [hB, hM, hN]

/-- The invocation stage submits the same identifiers whatever the parse
stage later does. -/
theorem invokeAndParse_calls (gk : Bool) (raw sel : List Char)
    (gen : List Char → List Char → GenOutcome)
    (loads : List Char → Option JVal) :
    (invokeAndParse gk raw sel gen loads).2 =
      (process_news_with_gemini gk raw sel gen).2 := by
  unfold invokeAndParse
  cases h : (process_news_with_gemini gk raw sel gen).1 with
  | noKey => simp [h]
  | failed e => simp [h]
  | ok t => by_cases ht : t = [] <;> simp [h, ht]

/-- With the key present, the invoker submits exactly one model request,
with the resolved identifier. -/
theorem process_calls (raw sel : List Char)
    (gen : List Char → List Char → GenOutcome) :
    (process_news_with_gemini true raw sel gen).2 = [resolveModel sel] := by
  unfold process_news_with_gemini
  cases h : gen (resolveModel sel) raw <;> simp [h]

/-- If every task fails or returns no results, the loop accumulates no
blocks. -/
theorem aggBlocks_nil_of_all_fail (provider : SearchTask → TaskResult)
    (ts : List SearchTask)
    (h : ∀ t ∈ ts, provider t = .err ∨ provider t = .ok []) :
    (aggLoop provider ts [] []).1 = [] := by
  rw [aggLoop_fst]
  simp only [List.nil_append]
  induction ts with
  | nil => rfl
  | cons t ts ih =>
    rw [List.flatMap_cons]
    have ht := h t (List.mem_cons_self t ts)
    have hrest := ih fun u hu => h u (List.mem_cons_of_mem t hu)
    rw [hrest]
    rcases ht with ht | ht <;> rw [ht] <;> rfl

/-- With both keys present, the invoker classifies a raised exception and
submits exactly one request. -/
theorem process_true_exn (raw sel msg : List Char)
    (gen : List Char → List Char → GenOutcome)
    (hgen : gen (resolveModel sel) raw = .exn msg) :
    process_news_with_gemini true raw sel gen =
      (.failed (classifyError msg), [resolveModel sel]) := by
  unfold process_news_with_gemini
  simp [hgen]

/-- With both keys present, the invoker returns the reply text and submits
exactly one request. -/
theorem process_true_ok (raw sel t : List Char)
    (gen : List Char → List Char → GenOutcome)
    (hgen : gen (resolveModel sel) raw = .ok t) :
    process_news_with_gemini true raw sel gen = (.ok t, [resolveModel sel]) := by
  unfold process_news_with_gemini
  simp [hgen]

/-- With both keys present and a non-empty corpus, the run is the
invoke-and-parse stage applied to the joined corpus. -/
theorem runPipeline_nonempty_corpus (provider : SearchTask → TaskResult)
    (gen : List Char → List Char → GenOutcome)
    (loads : List Char → Option JVal) (sel : List Char)
    (hne : joinNL (aggLoop provider registryTasks [] []).1 ≠ []) :
    runPipeline true true provider gen loads sel =
      ((invokeAndParse true (joinNL (aggLoop provider registryTasks [] []).1)
          sel gen loads).1,
        { searchCalls := registryTasks
        , genCalls := (invokeAndParse true (joinNL (aggLoop provider registryTasks [] []).1)
            sel gen loads).2 }) := by
  unfold runPipeline search_aggregated_data
  simp [hne]

/-- On a raised exception the invoke-and-parse stage reports the classified
invocation failure. -/
theorem invokeAndParse_of_exn (raw sel msg : List Char)
    (gen : List Char → List Char → GenOutcome)
    (loads : List Char → Option JVal)
    (hgen : gen (resolveModel sel) raw = .exn msg) :
    invokeAndParse true raw sel gen loads =
      (.invocationFailed (some (classifyError msg)), [resolveModel sel]) := by
  unfold invokeAndParse
  rw [process_true_exn raw sel msg gen hgen]

/-- On a non-empty reply the invoke-and-parse stage hands the reply to the
parse stage. -/
theorem invokeAndParse_of_ok (raw sel t : List Char)
    (gen : List Char → List Char → GenOutcome)
    (loads : List Char → Option JVal)
    (hgen : gen (resolveModel sel) raw = .ok t) (ht : t ≠ []) :
    invokeAndParse true raw sel gen loads =
      (parseStage loads t, [resolveModel sel]) := by
  unfold invokeAndParse
  rw [process_true_ok raw sel t gen hgen]
  simp [ht]

/-! ### Concrete scenario environments -/

/-- A provider for which every request raises. -/
def providerAllFail : SearchTask → TaskResult := fun _ => .err

/-- A fixed retrieved document. -/
def itemW : SearchItem :=
  { title := "T".toList, content := "C".toList, url := "U".toList }

/-- A provider returning the fixed document for every task. -/
def providerOneDoc : SearchTask → TaskResult := fun _ => .ok [itemW]

/-- A generation function returning a fixed reply. -/
def genReply (t : List Char) : List Char → List Char → GenOutcome :=
  fun _ _ => .ok t

/-- A generation function raising a fixed exception message. -/
def genRaise (m : List Char) : List Char → List Char → GenOutcome :=
  fun _ _ => .exn m

/-- A parser failing on every input, the behaviour of `json.loads` on
non-JSON text. -/
def loadsFail : List Char → Option JVal := fun _ => none

/-- The default entry of the model selector. -/
def selDefault : List Char := "gemini-3.0-flash-preview".toList

/-- The first scenario task of the two-task partial-failure scenario. -/
def taskA : SearchTask :=
  { category := "News".toList, query := "q1".toList, limit := 3 }

/-- The second scenario task, whose provider call raises. -/
def taskB : SearchTask :=
  { category := "Biz".toList, query := "q2".toList, limit := 3 }

/-- The scenario provider: three documents for the first task, a network
error for the second. -/
def providerScenario : SearchTask → TaskResult :=
  fun t => if t = taskA then .ok [itemW, itemW, itemW] else .err

/-! ### The claims -/

/-- C3: model-compatibility resolution is a pure static lookup: under the
one static `model_map`, every identifier absent from the table is returned
unchanged, and the resolver only ever rewrites identifiers that are keys of
the table (the identifiers known to be unsupported or superseded);
determinism is inherent in `resolveModel` being a function of the
identifier alone. -/
theorem C3_resolver_static :
    (∀ m, m ∉ model_map.map Prod.fst → resolveModel m = m) ∧
    (∀ m, resolveModel m ≠ m → m ∈ model_map.map Prod.fst) := by
  have base : ∀ m, m ∉ model_map.map Prod.fst → resolveModel m = m := by
    intro m hm
    unfold resolveModel
    rw [assocLookup_eq_none m model_map hm]
    rfl
  refine ⟨base, fun m hm => ?_⟩
  by_contra h
  exact hm (base m h)

/-- Witness for C3 at two concrete identifiers: an unmapped identifier
passes through unchanged, and a mapped identifier is rewritten and is a key
of the table. -/
theorem C3_resolver_static_witness :
    ("other-model".toList ∉ model_map.map Prod.fst ∧
      resolveModel "other-model".toList = "other-model".toList) ∧
    (resolveModel "gemini-2.5-pro".toList ≠ "gemini-2.5-pro".toList ∧
      "gemini-2.5-pro".toList ∈ model_map.map Prod.fst) := by
  constructor
  · exact ⟨by decide, C3_resolver_static.1 "other-model".toList (by decide)⟩
  · exact ⟨by decide, C3_resolver_static.2 "gemini-2.5-pro".toList (by decide)⟩

/-- C10: the invocation stage is total at its boundary: for every input it
either reports the missing key, returns the model's raw text, or returns a
failure obtained by classifying the caught exception message by substring
(`429` first, then `404`, otherwise unclassified); no exception escapes
because every `gen` outcome is consumed. -/
theorem C10_invoker_total (google_key : Bool) (raw_data model_selection : List Char)
    (gen : List Char → List Char → GenOutcome) :
    (google_key = false ∧
      (process_news_with_gemini google_key raw_data model_selection gen).1 = .noKey) ∨
    (∃ t, gen (resolveModel model_selection) raw_data = .ok t ∧
      (process_news_with_gemini google_key raw_data model_selection gen).1 = .ok t) ∨
    (∃ m, gen (resolveModel model_selection) raw_data = .exn m ∧
      (process_news_with_gemini google_key raw_data model_selection gen).1 =
        .failed (classifyError m) ∧
      (classifyError m = .rateLimited ↔ k429 <:+: m) ∧
      (classifyError m = .modelNotFound ↔
        (¬ k429 <:+: m ∧ k404 <:+: m))) := by
  cases google_key with
  | false => exact Or.inl ⟨rfl, rfl⟩
  | true =>
    cases hg : gen (resolveModel model_selection) raw_data with
    | ok t =>
      refine Or.inr (Or.inl ⟨t, rfl, ?_⟩)
      unfold process_news_with_gemini
      simp [hg]
    | exn m =>
      refine Or.inr (Or.inr ⟨m, rfl, ?_, ?_, ?_⟩)
      · unfold process_news_with_gemini
        simp [hg]
      · unfold classifyError
        by_cases h429 : k429 <:+: m
        · simp [h429]
        · by_cases h404 : k404 <:+: m <;> simp [h429, h404]
      · unfold classifyError
        by_cases h429 : k429 <:+: m
        · simp [h429]
        · by_cases h404 : k404 <:+: m <;> simp [h429, h404]

/-- C8: every block of the aggregated corpus is the formatted document of
exactly one task and carries that task's category as its leading tag, and
the corpus lists blocks in task execution order, then provider response
order within each task. -/
theorem C8_category_tagging (provider : SearchTask → TaskResult)
    (ts : List SearchTask) :
    (aggLoop provider ts [] []).1 =
      ts.flatMap (fun t => (resultItems (provider t)).map (formatDoc t.category)) ∧
    ∀ b ∈ (aggLoop provider ts [] []).1,
      ∃ t ∈ ts, ∃ it ∈ resultItems (provider t),
        b = formatDoc t.category it ∧
        b.take (t.category.length + 2) = '[' :: (t.category ++ [']']) := by
  constructor
  · rw [aggLoop_fst]
    simp
  · intro b hb
    rw [aggLoop_fst] at hb
    simp only [List.nil_append, List.mem_flatMap, List.mem_map] at hb
    obtain ⟨t, ht, it, hit, hfd⟩ := hb
    exact ⟨t, ht, it, hit, hfd.symm, by rw [← hfd]; exact formatDoc_take t.category it⟩

/-- Witness for C8: in the registry run against the one-document provider,
the first block is the first task's formatted document with that task's
category tag. -/
theorem C8_category_tagging_witness :
    formatDoc "Breaking News".toList itemW ∈ (aggLoop providerOneDoc registryTasks [] []).1 ∧
    ∃ t ∈ registryTasks, ∃ it ∈ resultItems (providerOneDoc t),
      formatDoc "Breaking News".toList itemW = formatDoc t.category it ∧
      (formatDoc "Breaking News".toList itemW).take (t.category.length + 2) =
        '[' :: (t.category ++ [']']) :=
  ⟨by decide,
    (C8_category_tagging providerOneDoc registryTasks).2
      (formatDoc "Breaking News".toList itemW) (by decide)⟩

/-- C7: a failing provider call leaves that task's contribution empty while
the other tasks still run: with one task returning three documents and the
other raising, the loop yields exactly the three blocks tagged with the
successful task's category, records one warning for the failed task, and
the corpus is non-empty so no fatal retrieval error can follow. -/
theorem C7_single_task_tolerance (provider : SearchTask → TaskResult)
    (t1 t2 : SearchTask) (d1 d2 d3 : SearchItem)
    (h1 : provider t1 = .ok [d1, d2, d3]) (h2 : provider t2 = .err) :
    aggLoop provider [t1, t2] [] [] =
      ([formatDoc t1.category d1, formatDoc t1.category d2, formatDoc t1.category d3],
        [t2.category]) ∧
    joinNL (aggLoop provider [t1, t2] [] []).1 ≠ [] := by
  have hagg : aggLoop provider [t1, t2] [] [] =
      ([formatDoc t1.category d1, formatDoc t1.category d2, formatDoc t1.category d3],
        [t2.category]) := by
    simp [aggLoop, h1, h2]
  refine ⟨hagg, ?_⟩
  rw [hagg]
  simp [joinNL, joinSep, formatDoc]

/-- Witness for C7 in the concrete two-task scenario. -/
theorem C7_single_task_tolerance_witness :
    aggLoop providerScenario [taskA, taskB] [] [] =
      ([formatDoc taskA.category itemW, formatDoc taskA.category itemW,
        formatDoc taskA.category itemW], [taskB.category]) ∧
    joinNL (aggLoop providerScenario [taskA, taskB] [] []).1 ≠ [] :=
  C7_single_task_tolerance providerScenario taskA taskB itemW itemW itemW
    (by decide) (by decide)

/-- C9: if either API key is absent, the run reports the precondition
failure and no search request and no model request is issued — neither by
the pipeline nor by the stage functions called with a missing key. -/
theorem C9_key_preconditions (google_key tavily_key : Bool)
    (provider : SearchTask → TaskResult)
    (gen : List Char → List Char → GenOutcome)
    (loads : List Char → Option JVal) (raw sel : List Char)
    (h : google_key = false ∨ tavily_key = false) :
    runPipeline google_key tavily_key provider gen loads sel =
      (.missingKeys, { searchCalls := [], genCalls := [] }) ∧
    (search_aggregated_data false provider).calls = [] ∧
    (process_news_with_gemini false raw sel gen).2 = [] := by
  refine ⟨?_, rfl, rfl⟩
  unfold runPipeline
  rw [if_pos h]

/-- Witness for C9 with the Google key absent. -/
theorem C9_key_preconditions_witness :
    runPipeline false true providerOneDoc (genReply "x".toList) loadsFail selDefault =
      (.missingKeys, { searchCalls := [], genCalls := [] }) ∧
    (search_aggregated_data false providerOneDoc).calls = [] ∧
    (process_news_with_gemini false "r".toList selDefault (genReply "x".toList)).2 = [] :=
  C9_key_preconditions false true providerOneDoc (genReply "x".toList) loadsFail
    "r".toList selDefault (Or.inl rfl)

/-- C1: if every registry task raises or returns zero documents, the
aggregation yields the empty corpus and the run aborts at the retrieval
stage with no model request issued; conversely, if at least one task
returns at least one document, the aggregator returns a non-empty corpus
and the run proceeds to issue exactly one model request. -/
theorem C1_retrieval_gate (provider : SearchTask → TaskResult)
    (gen : List Char → List Char → GenOutcome)
    (loads : List Char → Option JVal) (sel : List Char) :
    ((∀ t ∈ registryTasks, provider t = .err ∨ provider t = .ok []) →
      runPipeline true true provider gen loads sel =
        (.retrievalFailed, { searchCalls := registryTasks, genCalls := [] })) ∧
    ((∃ t ∈ registryTasks, ∃ d ds, provider t = .ok (d :: ds)) →
      (∃ c, (search_aggregated_data true provider).corpus = some c ∧ c ≠ []) ∧
      (runPipeline true true provider gen loads sel).2.genCalls = [resolveModel sel]) := by
  constructor
  · intro h
    have hblocks := aggBlocks_nil_of_all_fail provider registryTasks h
    unfold runPipeline search_aggregated_data
    simp [hblocks, joinNL, joinSep]
  · rintro ⟨t, ht, d, ds, hok⟩
    have hmem : formatDoc t.category d ∈ (aggLoop provider registryTasks [] []).1 := by
      rw [aggLoop_fst]
      simp only [List.nil_append, List.mem_flatMap]
      refine ⟨t, ht, ?_⟩
      rw [hok]
      exact List.mem_map_of_mem _ (List.mem_cons_self d ds)
    have hne := joinNL_ne_nil _ _ hmem (formatDoc_ne_nil t.category d)
    constructor
    · exact ⟨joinNL (aggLoop provider registryTasks [] []).1, rfl, hne⟩
    · rw [runPipeline_nonempty_corpus provider gen loads sel hne]
      simp [invokeAndParse_calls, process_calls]

/-- Witness for C1: the all-failing provider aborts at retrieval with no
model request; the one-document provider yields a non-empty corpus and one
model request. -/
theorem C1_retrieval_gate_witness :
    runPipeline true true providerAllFail (genReply "x".toList) loadsFail selDefault =
      (.retrievalFailed, { searchCalls := registryTasks, genCalls := [] }) ∧
    ((∃ c, (search_aggregated_data true providerOneDoc).corpus = some c ∧ c ≠ []) ∧
      (runPipeline true true providerOneDoc (genReply "x".toList) loadsFail
          selDefault).2.genCalls = [resolveModel selDefault]) :=
  ⟨(C1_retrieval_gate providerAllFail (genReply "x".toList) loadsFail selDefault).1
      (fun _ _ => Or.inl rfl),
    (C1_retrieval_gate providerOneDoc (genReply "x".toList) loadsFail selDefault).2
      ⟨taskNews, by decide, itemW, [], rfl⟩⟩

/-- C6: an invocation exception whose message contains `429` is classified
as rate-limited, the run halts at the invocation stage with exactly one
model request issued (no internal retry), and no report is produced. -/
theorem C6_rate_limited (provider : SearchTask → TaskResult)
    (gen : List Char → List Char → GenOutcome)
    (loads : List Char → Option JVal) (sel msg : List Char)
    (hne : joinNL (aggLoop provider registryTasks [] []).1 ≠ [])
    (hgen : gen (resolveModel sel) (joinNL (aggLoop provider registryTasks [] []).1) =
      .exn msg)
    (h429 : k429 <:+: msg) :
    (runPipeline true true provider gen loads sel).1 =
      .invocationFailed (some .rateLimited) ∧
    (runPipeline true true provider gen loads sel).2.genCalls = [resolveModel sel] ∧
    ∀ d, (runPipeline true true provider gen loads sel).1 ≠ .report d := by
  have hcls : classifyError msg = .rateLimited := by
    unfold classifyError
    rw [if_pos h429]
  have hrun := runPipeline_nonempty_corpus provider gen loads sel hne
  have hip := invokeAndParse_of_exn _ sel msg gen loads hgen
  refine ⟨?_, ?_, ?_⟩ <;> rw [hrun] <;> simp [hip, hcls]

/-- Witness for C6 with a concrete 429 message. -/
theorem C6_rate_limited_witness :
    (runPipeline true true providerOneDoc (genRaise "quota 429 exceeded".toList)
        loadsFail selDefault).1 = .invocationFailed (some .rateLimited) ∧
    (runPipeline true true providerOneDoc (genRaise "quota 429 exceeded".toList)
        loadsFail selDefault).2.genCalls = [resolveModel selDefault] ∧
    ∀ d, (runPipeline true true providerOneDoc (genRaise "quota 429 exceeded".toList)
        loadsFail selDefault).1 ≠ .report d :=
  C6_rate_limited providerOneDoc (genRaise "quota 429 exceeded".toList) loadsFail
    selDefault "quota 429 exceeded".toList (by decide) rfl (by decide)

/-- C5: a non-empty model reply that fails to parse after sanitization
lands in the parse-failure outcome carrying the original raw reply,
verbatim and non-empty; the raw text is never discarded. -/
theorem C5_parse_failure_preserves_raw (provider : SearchTask → TaskResult)
    (gen : List Char → List Char → GenOutcome)
    (loads : List Char → Option JVal) (sel raw : List Char)
    (hne : joinNL (aggLoop provider registryTasks [] []).1 ≠ [])
    (hgen : gen (resolveModel sel) (joinNL (aggLoop provider registryTasks [] []).1) =
      .ok raw)
    (hraw : raw ≠ [])
    (hparse : loads (sanitize raw) = none) :
    (runPipeline true true provider gen loads sel).1 = .parseError raw ∧ raw ≠ [] := by
  have hrun := runPipeline_nonempty_corpus provider gen loads sel hne
  have hip := invokeAndParse_of_ok _ sel raw gen loads hgen hraw
  refine ⟨?_, hraw⟩
  rw [hrun]
  simp [hip, parseStage, hparse]

/-- Witness for C5 with a concrete unparseable reply. -/
theorem C5_parse_failure_preserves_raw_witness :
    (runPipeline true true providerOneDoc (genReply "not json".toList) loadsFail
        selDefault).1 = .parseError "not json".toList ∧ "not json".toList ≠ [] :=
  C5_parse_failure_preserves_raw providerOneDoc (genReply "not json".toList)
    loadsFail selDefault "not json".toList (by decide) rfl (by decide) rfl

/-- A report whose title contains the fence marker text, legal JSON content
the sanitizer nevertheless rewrites. -/
def reportFenced : StructuredReport :=
  { breaking_news := [{ title := "a```jsonb".toList, core_points := []
                      , url := "u".toList, source := "s".toList }]
  , market_analysis := [], new_tech := [] }

/-- The same report after the sanitizer has eaten the fence marker from the
title. -/
def reportMangled : StructuredReport :=
  { breaking_news := [{ title := "ab".toList, core_points := []
                      , url := "u".toList, source := "s".toList }]
  , market_analysis := [], new_tech := [] }

/-- C2 counterexample: on the clean serialization of a report whose title
contains ```` ```json ````, the sanitizer is not the identity — it yields
the serialization of a different report, so sanitize-then-parse recovers a
report that is not equivalent to the original. -/
theorem C2_sanitize_roundtrip_counterexample :
    sanitize (dumpsReport reportFenced) = dumpsReport reportMangled ∧
    reportFenced ≠ reportMangled := by
  constructor
  · decide
  · decide

/-- C2 (amended): for every structured report whose serialization does not
contain the fence marker ```` ``` ````, sanitizing the clean serialization
is the identity and sanitizing the fenced-wrapped serialization recovers
the serialization exactly, so parsing recovers an equivalent report. -/
theorem C2_sanitize_roundtrip (r : StructuredReport)
    (h : ¬ fence <:+: dumpsReport r) :
    sanitize (dumpsReport r) = dumpsReport r ∧
    sanitize (wrapFence (dumpsReport r)) = dumpsReport r :=
  ⟨sanitize_id_of_clean _ h (dumpsReport_head r) (dumpsReport_last r),
   sanitize_unwraps _ h (dumpsReport_head r) (dumpsReport_last r)⟩

/-- A small fence-free report for the C2 witness. -/
def reportW : StructuredReport :=
  { breaking_news := [{ title := "a".toList, core_points := ["p".toList]
                      , url := "u".toList, source := "s".toList }]
  , market_analysis := [], new_tech := [] }

/-- Witness for the amended C2 at a concrete fence-free report. -/
theorem C2_sanitize_roundtrip_witness :
    (¬ fence <:+: dumpsReport reportW) ∧
    sanitize (dumpsReport reportW) = dumpsReport reportW ∧
    sanitize (wrapFence (dumpsReport reportW)) = dumpsReport reportW :=
  ⟨by decide, (C2_sanitize_roundtrip reportW (by decide)).1,
    (C2_sanitize_roundtrip reportW (by decide)).2⟩

/-- A parse-success reply whose single item is an object missing the
required `url` field. -/
def rawCexC4 : List Char :=
  "\x7b\"breaking_news\": [\x7b\"title\": \"t\"\x7d]\x7d".toList

/-- The value `json.loads` produces on that reply. -/
def dataCexC4 : JVal := .obj [(bnKey, .arr [.obj [(titleKey, .str "t".toList)]])]

/-- The standard-library parser restricted to the counterexample input. -/
def loadsCexC4 : List Char → Option JVal :=
  fun s => if s = rawCexC4 then some dataCexC4 else none

/-- C4 counterexample: on a reply that parses successfully but contains one
structurally malformed item (an object missing the required `url`), the run
does not drop the item and return a report — it aborts to the parse-failure
outcome carrying the raw payload. -/
theorem C4_malformed_item_counterexample :
    (runPipeline true true providerOneDoc (genReply rawCexC4) loadsCexC4
        selDefault).1 = .parseError rawCexC4 := rfl

/-- C4 (amended): missing sections default to empty and missing optional
fields default (`core_points` to `[]`, `source` to `Web`, `tech_highlight`
to `N/A`, market `url` to `None`), but a structurally malformed item is not
dropped: rendering succeeds with the extracted values exactly when every
item of every section passes its structural check, and any malformed item
aborts the whole rendering, sending the run to the parse-failure path. -/
theorem C4_render_structural (bs ms ts : List JVal) :
    renderReport (JVal.obj [(bnKey, .arr bs), (maKey, .arr ms), (ntKey, .arr ts)]) =
      (if bs.all newsOk && ms.all marketOk && ts.all toolOk then
        .ok { breaking := bs.map extractNews
            , market := ms.map extractMarket
            , tech := ts.map extractTool }
      else .error ()) ∧
    renderReport (JVal.obj []) = .ok { breaking := [], market := [], tech := [] } :=
  ⟨renderReport_obj3 bs ms ts, rfl⟩

end AIDaily
